import Mathlib

/-!
Shallow embedding of `main.py`, a Telegram channel-gating bot:
environment resolution (`load_env` / its inner `pick`), channel-reference
selection (`target_chat_id`), the subscription checker (`is_subscribed`),
the user store (`upsert_user` over a list of rows), the broadcast entry
handler (`cmd_delivery_start`) and the broadcast delivery handler
(`handle_delivery_content`).  External effects (Telegram API calls, the
reply sent back to the caller, FSM state changes) are made explicit as
arguments and returned values/event traces.
-/

namespace OmdPro

/-- ADMIN_ID constant from `main.py` line 50: the single administrator identity. -/
def ADMIN_ID : Int := 671179325

/-! ## Environment loading (`load_env`, lines 11-42) -/

/-- Python truthiness of an `Optional[str]`: `None` and the empty string are falsy. -/
def truthy (o : Option String) : Bool :=
  match o with
  | none => false
  | some s => !(s == "")

/-- Python `a or b` on `Optional[str]` values: returns `a` when truthy, else `b`. -/
def pyOr (a b : Option String) : Option String :=
  if truthy a then a else b

/-- Environment sources visible to `load_env`: the process environment as it was
at startup, the nearest `.env.local` file and the nearest `.env` file, each a
partial map from key to value. -/
structure EnvFiles where
  runtime : String → Option String
  envLocal : String → Option String
  envMain : String → Option String

/-- Process environment at the time `pick` runs: `load_dotenv(..., override=False)`
has merged `.env.local` and then `.env` into `os.environ`, never overriding a
key that is already present (presence, not truthiness). -/
def osAfterLoad (e : EnvFiles) (key : String) : Option String :=
  match e.runtime key with
  | some v => some v
  | none =>
    match e.envLocal key with
    | some v => some v
    | none => e.envMain key

/-- Inner `pick` of `load_env` (line 36-37):
`os.getenv(key) or env_local.get(key) or env_main.get(key) or default`. -/
def pick (e : EnvFiles) (key : String) (default : Option String) : Option String :=
  pyOr (osAfterLoad e key) (pyOr (e.envLocal key) (pyOr (e.envMain key) default))

/-- Result of `load_env` (lines 39-41): the three configuration values with
their built-in defaults. -/
def load_env (e : EnvFiles) : Option String × Option String × Option String :=
  (pick e "BOT_TOKEN" none,
   pick e "CHANNEL_ID" (some "-1002767095036"),
   pick e "CHANNEL_USERNAME" (some "@thedozell"))

/-! ## Channel reference (`target_chat_id`, lines 131-138) -/

/-- Value of a digit run, `none` if any character is not a decimal digit. -/
def digitsVal (cs : List Char) : Option Nat :=
  cs.foldl
    (fun acc c =>
      match acc with
      | none => none
      | some n => if c.isDigit then some (n * 10 + (c.toNat - 48)) else none)
    (some 0)

/-- Whitespace stripping on a character list (Python `int` strips surrounding
whitespace before parsing). -/
def stripChars (cs : List Char) : List Char :=
  ((cs.dropWhile Char.isWhitespace).reverse.dropWhile Char.isWhitespace).reverse

/-- Model of Python `int(s)` on a decimal string: optional surrounding
whitespace, an optional sign, then a non-empty run of decimal digits;
`none` models `ValueError`. -/
def parsePyInt (s : String) : Option Int :=
  match stripChars s.data with
  | [] => none
  | '-' :: rest =>
    if rest = [] then none else (digitsVal rest).map (fun n => -(n : Int))
  | '+' :: rest =>
    if rest = [] then none else (digitsVal rest).map (fun n => (n : Int))
  | cs => (digitsVal cs).map (fun n => (n : Int))

/-- Chat reference used for membership queries: numeric id or handle string
(Python return type `int | str`). -/
inductive ChatRef where
  | byId (id : Int)
  | byUsername (u : String)
  deriving DecidableEq, Repr

/-- Embedding of `target_chat_id` (lines 131-138): use `int(CHANNEL_ID_RAW)`
when `CHANNEL_ID_RAW` is truthy and parses, otherwise fall back to
`CHANNEL_USERNAME`. -/
def target_chat_id (channelIdRaw : Option String) (channelUsername : String) : ChatRef :=
  match channelIdRaw with
  | none => ChatRef.byUsername channelUsername
  | some s =>
    if s == "" then ChatRef.byUsername channelUsername
    else
      match parsePyInt s with
      | some n => ChatRef.byId n
      | none => ChatRef.byUsername channelUsername

/-! ## Subscription checker (`is_subscribed`, lines 141-155) -/

/-- Errors raised by the platform query; every constructor is an
`aiogram` `TelegramAPIError` (the code catches `TelegramBadRequest`
separately but returns `False` for both handlers). -/
inductive TgError where
  | badRequest
  | forbidden
  | serverError
  deriving DecidableEq, Repr

/-- Embedding of `is_subscribed` (lines 141-155).  The argument is the outcome
of `bot.get_chat_member`: either the reported status string
(`getattr(member, "status", "")` passed through `str`) or a raised error.
Statuses `member` / `administrator` / `creator` count as subscribed; any
error is caught and mapped to `False`. -/
def is_subscribed (res : Except TgError String) : Bool :=
  match res with
  | Except.ok status => ["member", "administrator", "creator"].contains status
  | Except.error _ => false

/-! ## User store (`User` table and `upsert_user`, lines 81-107) -/

/-- Row of the `users` table (lines 81-86).  The nullable string columns are
modelled as total strings: `upsert_user` only ever writes concrete strings
(`first_name or ""`). -/
structure UserRow where
  user_id : Int
  first_name : String
  username : String
  joined_at : String
  deriving DecidableEq, Repr

/-- Python `x or ""` on an `Optional[str]`: `None` and `""` both become `""`. -/
def orEmpty (o : Option String) : String :=
  match o with
  | none => ""
  | some s => if s == "" then "" else s

/-- Embedding of `upsert_user` (lines 95-107): SQLite
`INSERT ... ON CONFLICT(user_id) DO UPDATE SET first_name, username`.
When a row with the id exists its display fields are overwritten
(`joined_at` untouched); otherwise a fresh row is appended with
`joined_at = now`. -/
def upsert_user (db : List UserRow) (user_id : Int) (first_name username : Option String)
    (now : String) : List UserRow :=
  if db.any (fun r => r.user_id == user_id) then
    db.map (fun r =>
      if r.user_id == user_id then
        UserRow.mk r.user_id (orEmpty first_name) (orEmpty username) r.joined_at
      else r)
  else
    db ++ [UserRow.mk user_id (orEmpty first_name) (orEmpty username) now]

/-- Number of stored rows carrying a given id. -/
def countId (db : List UserRow) (i : Int) : Nat :=
  (db.filter (fun r => r.user_id == i)).length

/-! ## Broadcast flow (`Delivery` FSM, `cmd_delivery_start`,
`handle_delivery_content`, lines 114-217) -/

/-- FSM state of the broadcast flow: `None` (inactive) or
`Delivery.waiting_for_content`. -/
inductive FsmState where
  | inactive
  | waitingForContent
  deriving DecidableEq, Repr

/-- Replies the two broadcast handlers can send back to the caller. -/
inductive Reply where
  | permissionDenied
  | deliveryPrompt
  | emptyList
  | summary (sent failed : Nat)
  deriving DecidableEq, Repr

/-- Observable steps of `handle_delivery_content`, in program order:
`state.clear()`, the `get_all_user_ids()` snapshot, each
`bot.copy_message` attempt, and the reply to the admin. -/
inductive Event where
  | stateCleared
  | snapshotLoaded
  | copyMessage (uid : Int)
  | reply (r : Reply)
  deriving DecidableEq, Repr

/-- Embedding of `cmd_delivery_start` (lines 188-196): non-admin callers get a
permission-denied reply and nothing changes; the admin's FSM state is set to
`waiting_for_content` and the delivery prompt is sent.  The handler performs
no store operation, so the store passes through unchanged in both branches. -/
def cmd_delivery_start (callerId : Int) (fsm : FsmState) (store : List UserRow) :
    FsmState × List UserRow × Reply :=
  if callerId == ADMIN_ID then
    (FsmState.waitingForContent, store, Reply.deliveryPrompt)
  else
    (fsm, store, Reply.permissionDenied)

/-- Delivery loop of `handle_delivery_content` (lines 207-215): walk the id
snapshot in order; each `copy_message` attempt either succeeds (`sent += 1`)
or raises `TelegramAPIError` (`failed += 1`), and the loop continues either
way.  `sendOk` tells whether the platform send to a given id succeeds.
Returns the final counters and the trace of attempts. -/
def runDelivery (sendOk : Int → Bool) : List Int → Nat → Nat → Nat × Nat × List Event
  | [], sent, failed => (sent, failed, [])
  | uid :: rest, sent, failed =>
    let next :=
      if sendOk uid then runDelivery sendOk rest (sent + 1) failed
      else runDelivery sendOk rest sent (failed + 1)
    (next.1, next.2.1, Event.copyMessage uid :: next.2.2)

/-- Embedding of `handle_delivery_content` (lines 198-217): non-admin senders
are ignored (no state change, no events); otherwise the FSM is cleared, the id
snapshot is loaded, an empty snapshot yields the empty-list notice, and a
non-empty one runs the delivery loop and reports the `sent`/`failed`
summary. -/
def handle_delivery_content (callerId : Int) (fsm : FsmState) (userIds : List Int)
    (sendOk : Int → Bool) : FsmState × List Event :=
  if callerId == ADMIN_ID then
    if userIds = [] then
      (FsmState.inactive,
       [Event.stateCleared, Event.snapshotLoaded, Event.reply Reply.emptyList])
    else
      let r := runDelivery sendOk userIds 0 0
      (FsmState.inactive,
       Event.stateCleared :: Event.snapshotLoaded ::
         (r.2.2 ++ [Event.reply (Reply.summary r.1 r.2.1)]))
  else (fsm, [])

/-- Ids targeted by the `copy_message` attempts of a trace, in order. -/
def attemptTargets (evs : List Event) : List Int :=
  evs.filterMap (fun e =>
    match e with
    | Event.copyMessage uid => some uid
    | _ => none)

/-- Concrete environment for the precedence counterexample: the runtime
environment sets `BOT_TOKEN` to the empty string while `.env.local` sets it
to `tok-local`. -/
def envCex : EnvFiles :=
  ⟨fun k => if k == "BOT_TOKEN" then some "" else none,
   fun k => if k == "BOT_TOKEN" then some "tok-local" else none,
   fun _ => none⟩

/-! ## Theorems -/

/-- Counting rows by id is `countP` on the id test. -/
theorem countId_eq_countP (db : List UserRow) (i : Int) :
    countId db i = db.countP (fun r => r.user_id == i) :=
  (List.countP_eq_length_filter _ _).symm

/-- Mapping a user_id-preserving function over the store does not change any
id count. -/
theorem countId_map_preserving (g : UserRow → UserRow)
    (hg : ∀ r, (g r).user_id = r.user_id) (db : List UserRow) (i : Int) :
    countId (db.map g) i = countId db i := by
  induction db with
  | nil => rfl
  | cons r rest ih =>
    simp only [countId_eq_countP, List.map_cons, List.countP_cons] at *
    rw [ih, hg]

/-- Membership of a row with a given id forces a positive count for that id. -/
theorem countId_pos_of_mem {db : List UserRow} {r : UserRow} {i : Int}
    (hr : r ∈ db) (hid : r.user_id = i) : 1 ≤ countId db i := by
  induction db with
  | nil => cases hr
  | cons x rest ih =>
    rcases List.mem_cons.1 hr with h | h
    · subst h
      simp [countId_eq_countP, List.countP_cons, hid]
    · have := ih h
      simp only [countId_eq_countP, List.countP_cons] at *
      omega

/-- Lists of length at most one have at most one member. -/
theorem length_le_one_mem_eq {α : Type} {l : List α} (h : l.length ≤ 1) {a b : α}
    (ha : a ∈ l) (hb : b ∈ l) : a = b := by
  match l with
  | [] => cases ha
  | [x] =>
    have hax : a = x := by simpa using ha
    have hbx : b = x := by simpa using hb
    rw [hax, hbx]
  | x :: y :: rest => simp at h

/-- A count of at most one means any two member rows carrying that id
coincide. -/
theorem countId_le_one_unique {db : List UserRow} {i : Int}
    (h : countId db i ≤ 1) {r q : UserRow} (hr : r ∈ db) (hq : q ∈ db)
    (hri : r.user_id = i) (hqi : q.user_id = i) : r = q := by
  refine length_le_one_mem_eq h ?_ ?_
  · exact List.mem_filter.2 ⟨hr, by simpa using hri⟩
  · exact List.mem_filter.2 ⟨hq, by simpa using hqi⟩

/-- Zero rows carry an id that the `any` existence test rejects. -/
theorem countId_eq_zero_of_any_false {db : List UserRow} {i : Int}
    (h : db.any (fun r => r.user_id == i) = false) : countId db i = 0 := by
  rw [countId_eq_countP]
  refine List.countP_eq_zero.2 ?_
  intro r hr
  have := List.any_eq_false.1 h r hr
  simpa using this

/-- After an upsert for an id the store holds exactly one row with that id,
provided the store held at most one before. -/
theorem upsert_single_row (db : List UserRow) (id : Int) (f u : Option String)
    (t : String) (h : countId db id ≤ 1) :
    countId (upsert_user db id f u t) id = 1 := by
  unfold upsert_user
  by_cases hany : db.any (fun r => r.user_id == id) = true
  · rw [if_pos hany]
    rw [countId_map_preserving]
    · rcases List.any_eq_true.1 hany with ⟨r, hr, hrid⟩
      have := countId_pos_of_mem hr (by simpa using hrid)
      omega
    · intro r
      dsimp only
      split <;> rfl
  · rw [if_neg hany]
    have h0 := countId_eq_zero_of_any_false (Bool.eq_false_iff.2 hany)
    simp only [countId_eq_countP, List.countP_append] at *
    simp [h0, List.countP_cons]

/-- Upsert keeps every id count at most one. -/
theorem upsert_count_le (db : List UserRow) (id : Int) (f u : Option String)
    (t : String) (h : ∀ i, countId db i ≤ 1) (i : Int) :
    countId (upsert_user db id f u t) i ≤ 1 := by
  unfold upsert_user
  by_cases hany : db.any (fun r => r.user_id == id) = true
  · rw [if_pos hany]
    rw [countId_map_preserving]
    · exact h i
    · intro r
      dsimp only
      split <;> rfl
  · rw [if_neg hany]
    have h0 := countId_eq_zero_of_any_false (Bool.eq_false_iff.2 hany)
    by_cases hi : id = i
    · subst hi
      simp only [countId_eq_countP, List.countP_cons, List.countP_append] at *
      simp [h0]
    · have hne : ((UserRow.mk id (orEmpty f) (orEmpty u) t).user_id == i) = false := by
        simp [hi]
      simp only [countId_eq_countP, List.countP_append, List.countP_cons, hne] at *
      simpa using h i

/-- Any row carrying the upserted id after the upsert shows the display fields
of that upsert. -/
theorem upsert_row_fields (db : List UserRow) (id : Int) (f u : Option String)
    (t : String) :
    ∀ r ∈ upsert_user db id f u t, r.user_id = id →
      r.first_name = orEmpty f ∧ r.username = orEmpty u := by
  intro r hr hid
  unfold upsert_user at hr
  by_cases hany : db.any (fun x => x.user_id == id) = true
  · rw [if_pos hany] at hr
    rcases List.mem_map.1 hr with ⟨q, hq, hEq⟩
    by_cases hqid : (q.user_id == id) = true
    · rw [if_pos hqid] at hEq
      rw [← hEq]
      exact ⟨rfl, rfl⟩
    · rw [if_neg hqid] at hEq
      exfalso
      rw [← hEq] at hid
      exact hqid (by simpa using hid)
  · rw [if_neg hany] at hr
    rcases List.mem_append.1 hr with hin | hin
    · exfalso
      have := List.any_eq_false.1 (Bool.eq_false_iff.2 hany) r hin
      exact this (by simpa using hid)
    · have : r = UserRow.mk id (orEmpty f) (orEmpty u) t := by simpa using hin
      rw [this]
      exact ⟨rfl, rfl⟩

/-- C3: the store key is idempotent: two upserts with the same id leave exactly
one row for that id, and that row shows the fields of the second upsert; a
single upsert of an existing id also keeps the count at one and never
duplicates a row (all id counts stay at most one). -/
theorem upsert_idempotent_key (db : List UserRow) (id : Int)
    (f1 u1 f2 u2 : Option String) (t1 t2 : String) (h : ∀ i, countId db i ≤ 1) :
    countId (upsert_user (upsert_user db id f1 u1 t1) id f2 u2 t2) id = 1 ∧
    (∀ r ∈ upsert_user (upsert_user db id f1 u1 t1) id f2 u2 t2,
        r.user_id = id → r.first_name = orEmpty f2 ∧ r.username = orEmpty u2) ∧
    countId (upsert_user db id f1 u1 t1) id = 1 ∧
    (∀ i, countId (upsert_user db id f1 u1 t1) i ≤ 1) :=
  ⟨upsert_single_row _ id f2 u2 t2 (le_of_eq (upsert_single_row db id f1 u1 t1 (h id))),
   upsert_row_fields _ id f2 u2 t2,
   upsert_single_row db id f1 u1 t1 (h id),
   upsert_count_le db id f1 u1 t1 h⟩

/-- Witness for `upsert_idempotent_key`: two upserts of id 7 into the empty
store leave one row showing the second fields. -/
theorem upsert_idempotent_key_witness :
    countId (upsert_user (upsert_user [] 7 (some "a") (some "b") "T1") 7 (some "c") none "T2") 7
      = 1 ∧
    (∀ r ∈ upsert_user (upsert_user [] 7 (some "a") (some "b") "T1") 7 (some "c") none "T2",
        r.user_id = 7 → r.first_name = orEmpty (some "c") ∧ r.username = orEmpty none) ∧
    countId (upsert_user [] 7 (some "a") (some "b") "T1") 7 = 1 ∧
    (∀ i, countId (upsert_user [] 7 (some "a") (some "b") "T1") i ≤ 1) :=
  upsert_idempotent_key [] 7 (some "a") (some "b") (some "c") none "T1" "T2"
    (fun _ => Nat.zero_le 1)

/-- C6: upserting an id that is already stored rewrites only the display
fields: the surviving row keeps the `joined_at` written at first insertion,
and rows with other ids are untouched. -/
theorem upsert_preserves_joined_at (db : List UserRow) (id : Int) (f u : Option String)
    (t : String) (h : ∀ i, countId db i ≤ 1) (r : UserRow) (hr : r ∈ db)
    (hid : r.user_id = id) :
    (∀ q ∈ upsert_user db id f u t, q.user_id = id →
        q.joined_at = r.joined_at ∧ q.first_name = orEmpty f ∧ q.username = orEmpty u) ∧
    (∀ q ∈ db, q.user_id ≠ id → q ∈ upsert_user db id f u t) := by
  have hany : db.any (fun x => x.user_id == id) = true :=
    List.any_eq_true.2 ⟨r, hr, by simpa using hid⟩
  constructor
  · intro q hq hqid
    refine ⟨?_, (upsert_row_fields db id f u t q hq hqid).1,
            (upsert_row_fields db id f u t q hq hqid).2⟩
    unfold upsert_user at hq
    rw [if_pos hany] at hq
    rcases List.mem_map.1 hq with ⟨p, hp, hEq⟩
    by_cases hpid : (p.user_id == id) = true
    · rw [if_pos hpid] at hEq
      have hpr : p = r := countId_le_one_unique (h id) hp hr (by simpa using hpid) hid
      rw [← hEq]
      simpa using congrArg UserRow.joined_at hpr
    · rw [if_neg hpid] at hEq
      exfalso
      rw [← hEq] at hqid
      exact hpid (by simpa using hqid)
  · intro q hq hqid
    unfold upsert_user
    rw [if_pos hany]
    refine List.mem_map.2 ⟨q, hq, ?_⟩
    rw [if_neg (by simpa using hqid)]

/-- Witness for `upsert_preserves_joined_at`: re-upserting id 5 keeps its
original `T0` timestamp while the display fields change. -/
theorem upsert_preserves_joined_at_witness :
    (∀ q ∈ upsert_user [UserRow.mk 5 "a" "b" "T0"] 5 (some "c") none "T9", q.user_id = 5 →
        q.joined_at = (UserRow.mk 5 "a" "b" "T0").joined_at ∧
        q.first_name = orEmpty (some "c") ∧ q.username = orEmpty none) ∧
    (∀ q ∈ [UserRow.mk 5 "a" "b" "T0"], q.user_id ≠ 5 →
        q ∈ upsert_user [UserRow.mk 5 "a" "b" "T0"] 5 (some "c") none "T9") :=
  upsert_preserves_joined_at [UserRow.mk 5 "a" "b" "T0"] 5 (some "c") none "T9"
    (fun _ => List.length_filter_le _ _) (UserRow.mk 5 "a" "b" "T0") (by simp) rfl

/-- C10: the display columns written by an upsert are always concrete strings:
a missing (`None`) or empty display name or handle is stored as the empty
string, on insert and on update alike. -/
theorem upsert_no_null (db : List UserRow) (id : Int) (f u : Option String) (t : String)
    (r : UserRow) (hr : r ∈ upsert_user db id f u t) (hid : r.user_id = id) :
    r.first_name = orEmpty f ∧ r.username = orEmpty u ∧
    ((f = none ∨ f = some "") → r.first_name = "") ∧
    ((u = none ∨ u = some "") → r.username = "") := by
  have hfields := upsert_row_fields db id f u t r hr hid
  refine ⟨hfields.1, hfields.2, ?_, ?_⟩
  · rintro (hf | hf) <;> subst hf <;> rw [hfields.1] <;> rfl
  · rintro (hu | hu) <;> subst hu <;> rw [hfields.2] <;> rfl

/-- Witness for `upsert_no_null`: inserting id 7 with a missing name and an
empty handle stores empty strings for both fields. -/
theorem upsert_no_null_witness :
    (UserRow.mk 7 "" "" "T0").first_name = "" ∧ (UserRow.mk 7 "" "" "T0").username = "" := by
  have h := upsert_no_null [] 7 none (some "") "T0" (UserRow.mk 7 "" "" "T0")
    (by simp [upsert_user, orEmpty]) rfl
  exact ⟨h.2.2.1 (Or.inl rfl), h.2.2.2 (Or.inr rfl)⟩

/-- C1: the subscription checker is fail-closed: it answers subscribed exactly
when the query returned normally with status `member`, `administrator` or
`creator`; any other status and any raised platform error yields
not-subscribed. -/
theorem is_subscribed_fail_closed (res : Except TgError String) :
    is_subscribed res = true ↔
      ∃ s, res = Except.ok s ∧ (s = "member" ∨ s = "administrator" ∨ s = "creator") := by
  cases res with
  | ok s =>
    simp only [is_subscribed]
    constructor
    · intro h
      refine ⟨s, rfl, ?_⟩
      simpa using h
    · rintro ⟨t, ht, hmem⟩
      cases ht
      simpa using hmem
  | error e =>
    simp [is_subscribed]

/-- Witness for `is_subscribed_fail_closed`: status `member` is classified as
subscribed. -/
theorem is_subscribed_fail_closed_witness :
    is_subscribed (Except.ok "member") = true :=
  (is_subscribed_fail_closed (Except.ok "member")).2 ⟨"member", rfl, Or.inl rfl⟩

/-- C5: only the configured administrator can move the broadcast flow into the
capture state; every other caller gets a permission-denied reply while the FSM
state and the user store are left unchanged. -/
theorem cmd_delivery_start_admin_only (callerId : Int) (fsm : FsmState) (store : List UserRow) :
    (callerId ≠ ADMIN_ID →
      cmd_delivery_start callerId fsm store = (fsm, store, Reply.permissionDenied)) ∧
    (callerId = ADMIN_ID →
      cmd_delivery_start callerId fsm store
        = (FsmState.waitingForContent, store, Reply.deliveryPrompt)) := by
  constructor <;> intro h <;> simp [cmd_delivery_start, h]

/-- Witness for `cmd_delivery_start_admin_only`: a non-admin caller (id 0) is
rejected without a state change, and the admin enters the capture state. -/
theorem cmd_delivery_start_admin_only_witness :
    cmd_delivery_start 0 FsmState.inactive [] = (FsmState.inactive, [], Reply.permissionDenied) ∧
    cmd_delivery_start 671179325 FsmState.inactive []
      = (FsmState.waitingForContent, [], Reply.deliveryPrompt) :=
  ⟨(cmd_delivery_start_admin_only 0 FsmState.inactive []).1 (by decide),
   (cmd_delivery_start_admin_only 671179325 FsmState.inactive []).2 (by decide)⟩

/-- C8 counterexample: a key that IS set in the runtime environment (to the
empty string) does not win — the `.env.local` value is resolved instead,
because `pick` chains Python `or`, which treats the empty string as unset. -/
theorem pick_runtime_set_loses :
    envCex.runtime "BOT_TOKEN" = some "" ∧
    pick envCex "BOT_TOKEN" none = some "tok-local" ∧
    pick envCex "BOT_TOKEN" none ≠ envCex.runtime "BOT_TOKEN" := by
  refine ⟨by decide, by decide, by decide⟩

/-- C8 (amended): configuration precedence holds with non-empty values:
a non-empty runtime value wins over a non-empty `.env.local` value, which
wins over a non-empty `.env` value, which wins over the built-in default;
an empty-string value at any level is treated as unset. -/
theorem pick_precedence (e : EnvFiles) (key : String) (default : Option String) :
    pick e key default =
      if truthy (e.runtime key) then e.runtime key
      else if truthy (e.envLocal key) then e.envLocal key
      else if truthy (e.envMain key) then e.envMain key
      else default := by
  rcases hr : e.runtime key with _ | r <;>
    rcases hl : e.envLocal key with _ | l <;>
      rcases hm : e.envMain key with _ | m <;>
        simp only [pick, osAfterLoad, pyOr, truthy, hr, hl, hm] <;>
          split_ifs <;> simp_all

/-- C9: the channel reference prefers the numeric channel id when the raw
configured id is present, non-empty and parses as an integer; when it is
missing, empty or non-numeric, the handle string is used instead. -/
theorem target_chat_id_prefers_numeric (raw : Option String) (u : String) :
    (∀ s n, raw = some s → s ≠ "" → parsePyInt s = some n →
        target_chat_id raw u = ChatRef.byId n) ∧
    (∀ s, raw = some s → s ≠ "" → parsePyInt s = none →
        target_chat_id raw u = ChatRef.byUsername u) ∧
    ((raw = none ∨ raw = some "") → target_chat_id raw u = ChatRef.byUsername u) := by
  refine ⟨?_, ?_, ?_⟩
  · intro s n hs hne hp
    subst hs
    simp [target_chat_id, hne, hp]
  · intro s hs hne hp
    subst hs
    simp [target_chat_id, hne, hp]
  · rintro (h | h) <;> subst h <;> simp [target_chat_id]

/-- Witness for `target_chat_id_prefers_numeric` at the shipped defaults:
the default numeric id string is parsed and preferred, a handle-shaped id
falls back to the username, and so does a missing id. -/
theorem target_chat_id_prefers_numeric_witness :
    target_chat_id (some "-1002767095036") "@thedozell" = ChatRef.byId (-1002767095036) ∧
    target_chat_id (some "@abc") "@thedozell" = ChatRef.byUsername "@thedozell" ∧
    target_chat_id none "@thedozell" = ChatRef.byUsername "@thedozell" :=
  ⟨(target_chat_id_prefers_numeric (some "-1002767095036") "@thedozell").1
      "-1002767095036" (-1002767095036) rfl (by decide) (by decide),
   (target_chat_id_prefers_numeric (some "@abc") "@thedozell").2.1
      "@abc" rfl (by decide) (by decide),
   (target_chat_id_prefers_numeric none "@thedozell").2.2 (Or.inl rfl)⟩

/-- Delivery loop characterisation: starting from counters `(sent, failed)` it
adds the number of succeeding ids to `sent` and the number of failing ids to
`failed`, and attempts exactly the snapshot ids in order. -/
theorem runDelivery_spec (sendOk : Int → Bool) (l : List Int) (sent failed : Nat) :
    runDelivery sendOk l sent failed
      = (sent + l.countP (fun uid => sendOk uid),
         failed + l.countP (fun uid => !(sendOk uid)),
         l.map Event.copyMessage) := by
  induction l generalizing sent failed with
  | nil => simp [runDelivery]
  | cons uid rest ih =>
    by_cases hs : sendOk uid = true <;>
      simp [runDelivery, hs, ih, List.countP_cons, Prod.ext_iff] <;> omega

/-- Attempt extraction over a block of `copy_message` events followed by a
tail recovers the targeted ids in order. -/
theorem attemptTargets_map_copy (l : List Int) (tail : List Event) :
    attemptTargets (l.map Event.copyMessage ++ tail) = l ++ attemptTargets tail := by
  induction l with
  | nil => rfl
  | cons uid rest ih =>
    simp only [List.map_cons, List.cons_append, attemptTargets,
      List.filterMap_cons] at ih ⊢
    rw [ih]

/-- Successes and failures of the loop partition the snapshot. -/
theorem countP_not_add {α : Type} (p : α → Bool) (l : List α) :
    l.countP p + l.countP (fun a => !(p a)) = l.length := by
  induction l with
  | nil => simp
  | cons a l ih =>
    by_cases h : p a = true <;> simp [List.countP_cons, h] <;> omega

/-- C2 counterexample: instantiated at a snapshot of zero ids (so zero
failures), the handler does not report the summary `{sent: 0, failed: 0}` the
claim demands — the trace carries the empty-list notice instead. -/
theorem handle_delivery_no_summary_on_empty :
    Event.reply (Reply.summary 0 0)
      ∉ (handle_delivery_content 671179325 FsmState.waitingForContent [] (fun _ => false)).2 := by
  decide

/-- C2 (amended, restricted to a non-empty snapshot): the delivery loop
attempts exactly the snapshot ids, once each and in order, continuing past
failures, and the admin receives the summary `sent = N - K`, `failed = K`
where `K` counts the failing ids; the empty snapshot instead yields the
empty-list notice and no summary. -/
theorem handle_delivery_summary (fsm : FsmState) (userIds : List Int)
    (sendOk : Int → Bool) (h : userIds ≠ []) :
    attemptTargets (handle_delivery_content ADMIN_ID fsm userIds sendOk).2 = userIds ∧
    Event.reply
        (Reply.summary (userIds.length - userIds.countP (fun uid => !(sendOk uid)))
          (userIds.countP (fun uid => !(sendOk uid))))
      ∈ (handle_delivery_content ADMIN_ID fsm userIds sendOk).2 := by
  have hsent : userIds.length - userIds.countP (fun uid => !(sendOk uid))
      = userIds.countP (fun uid => sendOk uid) := by
    have := countP_not_add (fun uid => sendOk uid) userIds
    omega
  simp only [handle_delivery_content, beq_self_eq_true, if_true, h, if_neg h,
    runDelivery_spec, Nat.zero_add, hsent]
  constructor
  · simp only [attemptTargets, List.filterMap_cons]
    have := attemptTargets_map_copy userIds [Event.reply
      (Reply.summary (userIds.countP (fun uid => sendOk uid))
        (userIds.countP (fun uid => !(sendOk uid))))]
    simp only [attemptTargets] at this
    simpa using this
  · simp

/-- Witness for `handle_delivery_summary`: two stored ids of which the send to
id 2 fails produce the summary `sent = 1`, `failed = 1`, both ids attempted. -/
theorem handle_delivery_summary_witness :
    attemptTargets
        (handle_delivery_content ADMIN_ID FsmState.waitingForContent [1, 2]
          (fun uid => uid == 1)).2 = [1, 2] ∧
    Event.reply
        (Reply.summary ([1, 2].length - [1, 2].countP (fun uid => !(uid == 1)))
          ([1, 2].countP (fun uid => !(uid == 1))))
      ∈ (handle_delivery_content ADMIN_ID FsmState.waitingForContent [1, 2]
          (fun uid => uid == 1)).2 :=
  handle_delivery_summary FsmState.waitingForContent [1, 2] (fun uid => uid == 1) (by decide)

/-- C4 counterexample: with zero stored ids the handler replies with the
empty-list notice and never the `{sent: 0, failed: 0}` summary the claim
demands. -/
theorem handle_delivery_empty_notice :
    (handle_delivery_content 671179325 FsmState.waitingForContent [] (fun _ => true)).2
      = [Event.stateCleared, Event.snapshotLoaded, Event.reply Reply.emptyList] ∧
    Event.reply (Reply.summary 0 0)
      ∉ (handle_delivery_content 671179325 FsmState.waitingForContent [] (fun _ => true)).2 := by
  decide

/-- C4 (amended): a broadcast over an empty store issues no delivery call and
reports the no-op with the empty-list notice rather than a `{sent, failed}`
summary. -/
theorem handle_delivery_empty_noop (fsm : FsmState) (sendOk : Int → Bool) :
    handle_delivery_content ADMIN_ID fsm [] sendOk
      = (FsmState.inactive,
         [Event.stateCleared, Event.snapshotLoaded, Event.reply Reply.emptyList]) ∧
    (∀ uid : Int, Event.copyMessage uid ∉ (handle_delivery_content ADMIN_ID fsm [] sendOk).2) ∧
    (∀ s f : Nat,
        Event.reply (Reply.summary s f) ∉ (handle_delivery_content ADMIN_ID fsm [] sendOk).2) := by
  refine ⟨by simp [handle_delivery_content], ?_, ?_⟩
  · intro uid
    simp [handle_delivery_content]
  · intro s f
    simp [handle_delivery_content]

/-- C7: on an admin broadcast the very first step of the handler is the state
clear back to Inactive; the snapshot load and every delivery attempt come
strictly after it in the trace, and the resulting FSM state is Inactive. -/
theorem handle_delivery_clears_state_first (fsm : FsmState) (userIds : List Int)
    (sendOk : Int → Bool) :
    (handle_delivery_content ADMIN_ID fsm userIds sendOk).1 = FsmState.inactive ∧
    ∃ rest,
      (handle_delivery_content ADMIN_ID fsm userIds sendOk).2
        = Event.stateCleared :: Event.snapshotLoaded :: rest ∧
      ∀ uid ∈ userIds, Event.copyMessage uid ∈ rest := by
  by_cases h : userIds = []
  · subst h
    refine ⟨rfl, [Event.reply Reply.emptyList], rfl, ?_⟩
    intro uid hu
    simp at hu
  · refine ⟨?_, ?_⟩
    · simp [handle_delivery_content, h]
    · simp only [handle_delivery_content, beq_self_eq_true, if_true, if_neg h,
        runDelivery_spec, Nat.zero_add]
      refine ⟨_, rfl, ?_⟩
      intro uid hu
      simp only [List.mem_append, List.mem_map]
      exact Or.inl ⟨uid, hu, rfl⟩

end OmdPro
